import Mathlib

/-!
Shallow embedding of the ucall connection/memory core:
`src/datastructures.hpp` (array_gt, buffer_gt, pool_gt, round_robin_gt),
`src/shared.hpp` (descriptor_t, round_robin_gt) and
`src/helpers/reply.hpp` (reply assembly and HTTP header patching).

Machine memory is modelled with Lean lists: an `iovec` byte range is the
list of referenced bytes, a malloc'd block is a list supplied by the
caller, and a null pointer is `Option.none`.  Allocation success or
failure of `malloc`/`realloc` is an explicit boolean/option parameter of
each fallible operation, mirroring the branch the C++ takes on the
returned pointer.
-/

/-! ### Shared definitions (src/shared.hpp) -/

/-- Embeds `descriptor_t` sentinel `bad_descriptor_k{-1}`. -/
def bad_descriptor_k : Int := -1

/-- Embeds the per-slot connection record fields touched by
`round_robin_gt`: `descriptor`, `skipped_cycles`, and the response
progress counters `response.copies_count` / `response.iovecs_count`. -/
structure connection_t where
  descriptor : Int
  skipped_cycles : Nat
  copies_count : Nat
  iovecs_count : Nat
deriving DecidableEq

/-- Stands for one uninitialized record of a freshly malloc'd circle;
also the (never relevant) out-of-bounds default of list reads. -/
def junk_connection : connection_t := ⟨0, 0, 0, 0⟩

/-! ### round_robin_gt (src/datastructures.hpp lines 264-356, identical
copy in src/shared.hpp lines 80-141) -/

/-- State of `round_robin_gt<connection_t>`: the `circle_` array and the
five scalar fields. -/
structure round_robin_t where
  circle : List connection_t
  count : Nat
  capacity : Nat
  idx_newest : Nat
  idx_oldest : Nat
  idx_to_poll : Nat
deriving DecidableEq

namespace round_robin_t

/-- Embeds the default-constructed ring (all fields zero-initialized). -/
def init : round_robin_t := ⟨[], 0, 0, 0, 0, 0⟩

/-- Embeds `round_robin_gt::alloc`: `mem` is the result of
`malloc(sizeof(element_at) * n)` — `none` when the allocation failed, in
which case the ring returns `false` unchanged; otherwise `circle_` and
`capacity_` are set. -/
def alloc (r : round_robin_t) (mem : Option (List connection_t)) : Bool × round_robin_t :=
  match mem with
  | none => (false, r)
  | some cons => (true, { r with circle := cons, capacity := cons.length })

/-- Embeds `round_robin_gt::drop_tail`: exchanges the oldest slot's
descriptor with the sentinel, bumps the poll cursor off the dropped slot,
advances `idx_oldest_` mod capacity, decrements `count_`, and returns the
evicted descriptor. -/
def drop_tail (r : round_robin_t) : Int × round_robin_t :=
  let old := (r.circle.getD r.idx_oldest junk_connection).descriptor
  let circle := r.circle.set r.idx_oldest
    { r.circle.getD r.idx_oldest junk_connection with descriptor := bad_descriptor_k }
  let idx_to_poll :=
    if r.idx_to_poll = r.idx_oldest then (r.idx_to_poll + 1) % r.capacity else r.idx_to_poll
  (old, { r with circle := circle, idx_to_poll := idx_to_poll,
                 idx_oldest := (r.idx_oldest + 1) % r.capacity, count := r.count - 1 })

/-- Embeds `round_robin_gt::push_ahead`: writes the new descriptor at
`idx_newest_`, zeroing `skipped_cycles` and both response counters, then
advances `idx_newest_` mod capacity and increments `count_`. -/
def push_ahead (r : round_robin_t) (new_ : Int) : round_robin_t :=
  { r with circle := r.circle.set r.idx_newest ⟨new_, 0, 0, 0⟩,
           idx_newest := (r.idx_newest + 1) % r.capacity,
           count := r.count + 1 }

/-- Embeds `round_robin_gt::poll`: computes the following cursor as
`(idx_to_poll_ + 1) % count_`, wraps it to `idx_oldest_` when it hits
`idx_newest_`, stores it, and returns `circle_[idx_to_poll_]` read at the
ADVANCED cursor — exactly as the source does (the `connection_ptr` local
holding the pre-advance record is computed but never returned). -/
def poll (r : round_robin_t) : connection_t × round_robin_t :=
  let idx_to_poll_following := (r.idx_to_poll + 1) % r.count
  let idx_to_poll :=
    if idx_to_poll_following = r.idx_newest then r.idx_oldest else idx_to_poll_following
  (r.circle.getD idx_to_poll junk_connection, { r with idx_to_poll := idx_to_poll })

/-- Physical indices of the live slots, oldest first: slot `idx_oldest_ + i`
mod capacity for `i < count_`, i.e. insertion order. -/
def live_indices (r : round_robin_t) : List Nat :=
  (List.range r.count).map fun i => (r.idx_oldest + i) % r.capacity

/-- Descriptors of the live slots in insertion order. -/
def live_descriptors (r : round_robin_t) : List Int :=
  (r.live_indices).map fun j => (r.circle.getD j junk_connection).descriptor

/-- Slot `j` currently holds a live connection. -/
def is_live_index (r : round_robin_t) (j : Nat) : Prop := j ∈ r.live_indices

instance (r : round_robin_t) (j : Nat) : Decidable (r.is_live_index j) := by
  unfold is_live_index; infer_instance

/-- The poll-cursor clause of the spec's ring invariant: the cursor rests
on a live slot, or on the oldest slot while the ring is empty. -/
def cursor_ok (r : round_robin_t) : Prop :=
  r.is_live_index r.idx_to_poll ∨ (r.count = 0 ∧ r.idx_to_poll = r.idx_oldest)

instance (r : round_robin_t) : Decidable (r.cursor_ok) := by
  unfold cursor_ok; infer_instance

/-- The full invariant asserted by the spec for C3: count bounded by
capacity, both insertion cursors valid, and the poll cursor live (or at
the oldest slot when empty). -/
def claim_inv (r : round_robin_t) : Prop :=
  r.count ≤ r.capacity ∧ r.idx_oldest < r.capacity ∧ r.idx_newest < r.capacity ∧ r.cursor_ok

/-- Structural bounds maintained by every ring operation: live count
within capacity, all three cursors in range, and the circle block really
holding `capacity` records. -/
def bounds_inv (r : round_robin_t) : Prop :=
  r.count ≤ r.capacity ∧ 0 < r.capacity ∧ r.idx_oldest < r.capacity
    ∧ r.idx_newest < r.capacity ∧ r.idx_to_poll < r.capacity
    ∧ r.circle.length = r.capacity

/-- States reachable from a freshly allocated ring (positive capacity) by
`push_ahead`, `drop_tail` and `poll` under the spec's stated
preconditions (`size() < capacity()` before push, `size() > 0` before
drop and poll). -/
inductive reachable : round_robin_t → Prop where
  | alloc (mem : List connection_t) (hpos : 0 < mem.length) :
      reachable (round_robin_t.init.alloc (some mem)).2
  | push (r : round_robin_t) (d : Int) (hr : reachable r) (hcap : r.count < r.capacity) :
      reachable (r.push_ahead d)
  | drop (r : round_robin_t) (hr : reachable r) (hpos : 0 < r.count) :
      reachable (r.drop_tail).2
  | poll (r : round_robin_t) (hr : reachable r) (hpos : 0 < r.count) :
      reachable (r.poll).2

/-- States reachable as above but without any `poll` call. -/
inductive reachable_np : round_robin_t → Prop where
  | alloc (mem : List connection_t) (hpos : 0 < mem.length) :
      reachable_np (round_robin_t.init.alloc (some mem)).2
  | push (r : round_robin_t) (d : Int) (hr : reachable_np r) (hcap : r.count < r.capacity) :
      reachable_np (r.push_ahead d)
  | drop (r : round_robin_t) (hr : reachable_np r) (hpos : 0 < r.count) :
      reachable_np (r.drop_tail).2

end round_robin_t

/-- Capacity-4 ring after `alloc`, `push_ahead 10`, `push_ahead 11`:
two live connections in slots 0 and 1, poll cursor at slot 0. -/
def c2_state : round_robin_t :=
  (((round_robin_t.init.alloc (some (List.replicate 4 junk_connection))).2.push_ahead
      10).push_ahead 11)

/-- Capacity-4 ring after `alloc`, three `push_ahead` (descriptors
10, 11, 12) and two `drop_tail`: one live connection (descriptor 12) in
slot 2, poll cursor at slot 2. -/
def c1_state : round_robin_t :=
  ((c2_state.push_ahead 12).drop_tail.2.drop_tail.2)

/-- The state `c1_state` reaches after one further `poll`. -/
def c3_state : round_robin_t := (c1_state.poll).2

/-! ### array_gt (src/datastructures.hpp lines 87-179) -/

/-- State of `array_gt<element_at>`: `elements_` is the malloc'd block of
`capacity_` element slots (appended elements occupy the first `count_`
slots, the rest are the default-constructed tail). -/
structure array_gt (α : Type) where
  elements : List α
  count : Nat
  capacity : Nat
deriving DecidableEq

namespace array_gt

variable {α : Type} [Inhabited α]

/-- Well-formedness carried by the C++ object: the appended region fits
the capacity and the block really has `capacity_` slots. -/
def wf (a : array_gt α) : Prop := a.count ≤ a.capacity ∧ a.elements.length = a.capacity

/-- Embeds `array_gt::reserve`: no-op success when `n <= capacity_`;
otherwise `malloc`/`realloc` (success signalled by `alloc_ok`) keeps the
existing slots' bit patterns and default-constructs slots
`capacity_ .. n`; on allocation failure returns `false` with the state
untouched. -/
def reserve (a : array_gt α) (n : Nat) (alloc_ok : Bool) : Bool × array_gt α :=
  if n ≤ a.capacity then (true, a)
  else if alloc_ok then
    (true, { elements := a.elements ++ List.replicate (n - a.capacity) default,
             count := a.count, capacity := n })
  else (false, a)

/-- Embeds `array_gt::push_back_reserved`: writes at slot `count_` and
increments `count_` (the caller guarantees prior capacity). -/
def push_back_reserved (a : array_gt α) (e : α) : array_gt α :=
  { a with elements := a.elements.set a.count e, count := a.count + 1 }

/-- A sequence of `reserve` calls whose allocations all succeed. -/
def reserve_seq (a : array_gt α) (ns : List Nat) : array_gt α :=
  ns.foldl (fun s n => (s.reserve n true).2) a

end array_gt

/-! ### buffer_gt (src/datastructures.hpp lines 39-81) -/

/-- State of `buffer_gt<element_at>`: `elements_` is `none` exactly when
the data pointer is null. -/
structure buffer_gt (α : Type) where
  elements : Option (List α)
  capacity : Nat
deriving DecidableEq

namespace buffer_gt

variable {α : Type} [Inhabited α]

/-- Embeds `buffer_gt::resize`, faithfully to its statement order: the
source assigns `elements_ = malloc(...)` BEFORE the null check, so a
failed allocation leaves `elements_` null while `capacity_` keeps its old
value; on success the new block is default-constructed and `capacity_`
becomes `n`. -/
def resize (b : buffer_gt α) (n : Nat) (alloc_ok : Bool) : Bool × buffer_gt α :=
  if alloc_ok then (true, { elements := some (List.replicate n default), capacity := n })
  else (false, { elements := none, capacity := b.capacity })

end buffer_gt

/-! ### pool_gt (src/datastructures.hpp lines 185-258) -/

/-- State of `pool_gt<element_at>`: the free-offset stack lives in
`free_offsets` (the element payloads are never inspected by the pool
logic); a returned "pointer" is the element offset `free_offsets_[i]`,
always a valid, hence non-null, address `elements_ + offset`. -/
structure pool_gt where
  capacity : Nat
  free_count : Nat
  free_offsets : List Nat
deriving DecidableEq

namespace pool_gt

/-- Embeds `pool_gt::reserve`: one block holding `n` elements plus `n`
free offsets, the stack `iota`-filled with `0..n-1`; on allocation
failure returns `false` with the state untouched. -/
def reserve (p : pool_gt) (n : Nat) (alloc_ok : Bool) : Bool × pool_gt :=
  if alloc_ok then (true, { capacity := n, free_count := n, free_offsets := List.range n })
  else (false, p)

/-- Embeds `pool_gt::alloc`: pops `free_offsets_[--free_count_]` when the
stack is non-empty, otherwise returns the null pointer. -/
def alloc (p : pool_gt) : Option Nat × pool_gt :=
  if p.free_count ≠ 0 then
    (some (p.free_offsets.getD (p.free_count - 1) 0), { p with free_count := p.free_count - 1 })
  else (none, p)

/-- Embeds `pool_gt::release`: pushes the element's offset back on the
free stack at `free_offsets_[free_count_++]`. -/
def release (p : pool_gt) (off : Nat) : pool_gt :=
  { p with free_offsets := p.free_offsets.set p.free_count off,
           free_count := p.free_count + 1 }

/-- Iterated `alloc`: the list of the `k` results in call order, and the
final pool state. -/
def alloc_n (p : pool_gt) : Nat → List (Option Nat) × pool_gt
  | 0 => ([], p)
  | k + 1 =>
    let r := p.alloc
    let rest := r.2.alloc_n k
    (r.1 :: rest.1, rest.2)

end pool_gt

/-! ### Reply encoder (src/helpers/reply.hpp) -/

/-- Embeds the 78-byte `http_header_k` template. -/
def http_header_k : List Char :=
  ("HTTP/1.1 200 OK\r\nContent-Length:          \r\nContent-Type: application/json\r\n\r\n").toList

/-- Embeds `http_header_size_k`. -/
def http_header_size_k : Nat := 78

/-- Embeds `http_header_length_offset_k`. -/
def http_header_length_offset_k : Nat := 33

/-- Embeds `http_header_length_capacity_k`. -/
def http_header_length_capacity_k : Nat := 9

/-- Little-endian base-10 digits of `n`, written with explicit fuel so
that the kernel can evaluate it (`fuel ≥ n` suffices). -/
def decimal_digits_core (fuel n : Nat) : List Nat :=
  match fuel with
  | 0 => []
  | f + 1 => if n = 0 then [] else n % 10 :: decimal_digits_core f (n / 10)

/-- The bytes `std::to_chars` produces for a `size_t` value: the plain
decimal ASCII digits, most significant first, no sign and no padding
(`"0"` for zero). -/
def decimal_ascii (n : Nat) : List Char :=
  if n = 0 then [Char.ofNat 48]
  else ((decimal_digits_core n n).reverse).map fun d => Char.ofNat (48 + d)

/-- Overwrites `src.length` bytes of `dst` starting at byte `off`,
leaving every byte before and after untouched — the effect of a
successful in-place `std::to_chars` into the window at `dst + off`. -/
def write_bytes (dst : List Char) (off : Nat) (src : List Char) : List Char :=
  dst.take off ++ src ++ dst.drop (off + src.length)

/-- Embeds `set_http_content_length`: `std::to_chars` into the 9-byte
window at offset 33 succeeds — writing exactly the decimal digits,
touching nothing else — iff the digits fit the window; otherwise it
reports `value_too_large` and the function returns `false`. -/
def set_http_content_length (headers : List Char) (content_len : Nat) : Bool × List Char :=
  let ds := decimal_ascii content_len
  if ds.length ≤ http_header_length_capacity_k then
    (true, write_bytes headers http_header_length_offset_k ds)
  else (false, headers)

/-- Embeds the 22-byte `response_protocol_prefix_k` fragment shared by
`fill_with_content` and `fill_with_error`. -/
def response_protocol_start_k : List Char := ("\x7b\"jsonrpc\":\"2.0\",\"id\":").toList

/-- Embeds `result_separator` of `fill_with_content` (10 bytes). -/
def result_separator_k : List Char := (",\"result\":").toList

/-- Embeds `protocol_suffix` of `fill_with_content` (bytes of
literal 'close brace comma'; iov_len picks 1 or 2 of them). -/
def content_suffix_k : List Char := ("\x7d,").toList

/-- Embeds `error_code_separator` of `fill_with_error` (17 bytes). -/
def error_code_separator_k : List Char := (",\"error\":\x7b\"code\":").toList

/-- Embeds `error_message_separator` of `fill_with_error` (12 bytes). -/
def error_message_separator_k : List Char := (",\"message\":\"").toList

/-- Embeds `protocol_suffix` of `fill_with_error` (4 bytes; iov_len picks
3 or 4 of them). -/
def error_suffix_k : List Char := ("\"\x7d\x7d,").toList

/-- Embeds `iovecs_length<n>`: the sum of the `iov_len` fields, which in
this embedding is the sum of the ranges' byte counts. -/
def iovecs_length (iovecs : List (List Char)) : Nat :=
  (iovecs.map List.length).sum

/-- Embeds `iovecs_memcpy<n>` composed with its output buffer: the
concatenation of the byte ranges in order. -/
def iovecs_join (iovecs : List (List Char)) : List Char := iovecs.flatten

/-- Embeds `fill_with_content`: the five iovec ranges (fixed fragments,
caller's id and body, suffix of 1 or 2 bytes as `append_comma` dictates)
and the returned total, which the source computes as the sum of the five
`iov_len` fields. -/
def fill_with_content (request_id body : List Char) (append_comma : Bool) :
    List (List Char) × Nat :=
  let b0 := response_protocol_start_k
  let b1 := request_id
  let b2 := result_separator_k
  let b3 := body
  let b4 := content_suffix_k.take (1 + (if append_comma then 1 else 0))
  ([b0, b1, b2, b3, b4],
   b0.length + b1.length + b2.length + b3.length + b4.length)

/-- Embeds `fill_with_error`: the seven iovec ranges and the returned
total, which the source hardcodes as
`22 + id.size() + 17 + code.size() + 12 + message.size() + 3 + append_comma`. -/
def fill_with_error (request_id error_code error_message : List Char) (append_comma : Bool) :
    List (List Char) × Nat :=
  let c := if append_comma then 1 else 0
  ([response_protocol_start_k, request_id, error_code_separator_k, error_code,
    error_message_separator_k, error_message, error_suffix_k.take (3 + c)],
   22 + request_id.length + 17 + error_code.length + 12 + error_message.length + 3 + c)

/-! ### Helper lemmas -/

theorem response_protocol_start_k_length : response_protocol_start_k.length = 22 := rfl

theorem result_separator_k_length : result_separator_k.length = 10 := rfl

theorem error_code_separator_k_length : error_code_separator_k.length = 17 := rfl

theorem error_message_separator_k_length : error_message_separator_k.length = 12 := rfl

theorem error_suffix_k_length : error_suffix_k.length = 4 := rfl

theorem http_header_k_length : http_header_k.length = 78 := rfl

theorem decimal_digits_core_eq (fuel n : Nat) (h : n ≤ fuel) :
    decimal_digits_core fuel n = Nat.digits 10 n := by
  induction fuel generalizing n with
  | zero =>
    have : n = 0 := by omega
    simp [decimal_digits_core, this]
  | succ f ih =>
    by_cases hn : n = 0
    · simp [decimal_digits_core, hn]
    · have hdiv : n / 10 ≤ f := by
        have := Nat.div_lt_self (Nat.pos_of_ne_zero hn) (by norm_num : 1 < 10)
        omega
      rw [decimal_digits_core, if_neg hn, ih (n / 10) hdiv,
          Nat.digits_def' (by norm_num : 1 < 10) (Nat.pos_of_ne_zero hn)]

theorem decimal_ascii_len_pos (n : Nat) : 1 ≤ (decimal_ascii n).length := by
  unfold decimal_ascii
  by_cases h : n = 0
  · simp [h]
  · rw [if_neg h, decimal_digits_core_eq n n le_rfl, List.length_map, List.length_reverse]
    have hne : Nat.digits 10 n ≠ [] := Nat.digits_ne_nil_iff_ne_zero.mpr h
    have := List.length_pos.mpr hne
    omega

theorem decimal_ascii_fits_iff (n : Nat) : (decimal_ascii n).length ≤ 9 ↔ n < 10 ^ 9 := by
  unfold decimal_ascii
  by_cases h : n = 0
  · subst h; simp
  · rw [if_neg h, decimal_digits_core_eq n n le_rfl, List.length_map, List.length_reverse,
        Nat.digits_len 10 n (by norm_num) h,
        Nat.lt_pow_iff_log_lt (by norm_num) h]
    omega

theorem http_header_padding (d : Nat) (h1 : 1 ≤ d) (h9 : d ≤ 9) :
    (http_header_k.drop (33 + d)).take (9 - d) = List.replicate (9 - d) (' ') := by
  interval_cases d <;> decide

theorem array_gt.reserve_preserves {α : Type} [Inhabited α] (a : array_gt α) (n : Nat)
    (ok : Bool) (hwf : a.wf) :
    ((a.reserve n ok).2).wf ∧ (a.reserve n ok).2.count = a.count
      ∧ (a.reserve n ok).2.elements.take a.count = a.elements.take a.count := by
  obtain ⟨hcnt, hlen⟩ := hwf
  unfold array_gt.reserve
  by_cases h : n ≤ a.capacity
  · rw [if_pos h]
    exact ⟨⟨hcnt, hlen⟩, rfl, rfl⟩
  · rw [if_neg h]
    cases ok with
    | false => exact ⟨⟨hcnt, hlen⟩, rfl, rfl⟩
    | true =>
      refine ⟨⟨by simp; omega, ?_⟩, rfl, ?_⟩
      · simp [List.length_append, hlen]
        omega
      · exact List.take_append_of_le_length (by omega)

theorem array_gt.reserve_seq_take {α : Type} [Inhabited α] (ns : List Nat) :
    ∀ (a : array_gt α), a.wf →
      (a.reserve_seq ns).elements.take a.count = a.elements.take a.count := by
  induction ns with
  | nil => intro a _; rfl
  | cons n ns ih =>
    intro a hwf
    have h := array_gt.reserve_preserves a n true hwf
    have step : a.reserve_seq (n :: ns) = ((a.reserve n true).2).reserve_seq ns := by
      simp [array_gt.reserve_seq]
    rw [step]
    have hrec := ih ((a.reserve n true).2) h.1
    rw [h.2.1] at hrec
    exact hrec.trans h.2.2

theorem pool_gt.alloc_n_spec (k : Nat) :
    ∀ (p : pool_gt), k ≤ p.free_count →
      ((p.alloc_n k).1.all Option.isSome)
      ∧ (p.alloc_n k).2.free_count = p.free_count - k
      ∧ (p.alloc_n k).2.free_offsets = p.free_offsets
      ∧ (p.alloc_n k).2.capacity = p.capacity := by
  induction k with
  | zero => intro p _; exact ⟨rfl, by simp [pool_gt.alloc_n], rfl, rfl⟩
  | succ k ih =>
    intro p h
    have hfc : p.free_count ≠ 0 := by omega
    have halloc : p.alloc
        = (some (p.free_offsets.getD (p.free_count - 1) 0),
           { p with free_count := p.free_count - 1 }) := by
      unfold pool_gt.alloc
      rw [if_pos hfc]
    have hrec := ih { p with free_count := p.free_count - 1 } (by simp; omega)
    unfold pool_gt.alloc_n
    rw [halloc]
    simp only [List.all_cons, Option.isSome_some, Bool.true_and]
    refine ⟨hrec.1, ?_, hrec.2.2.1, hrec.2.2.2⟩
    rw [hrec.2.1]
    simp
    omega

theorem round_robin_t.bounds_push (r : round_robin_t) (d : Int) (h : r.bounds_inv)
    (hcap : r.count < r.capacity) : (r.push_ahead d).bounds_inv := by
  obtain ⟨h1, h2, h3, h4, h5, h6⟩ := h
  refine ⟨?_, h2, h3, ?_, h5, ?_⟩
  · show r.count + 1 ≤ r.capacity
    omega
  · show (r.idx_newest + 1) % r.capacity < r.capacity
    exact Nat.mod_lt _ h2
  · show (r.circle.set r.idx_newest ⟨d, 0, 0, 0⟩).length = r.capacity
    rw [List.length_set]
    exact h6

theorem round_robin_t.bounds_drop (r : round_robin_t) (h : r.bounds_inv) :
    ((r.drop_tail).2).bounds_inv := by
  obtain ⟨h1, h2, h3, h4, h5, h6⟩ := h
  refine ⟨?_, h2, ?_, h4, ?_, ?_⟩
  · show r.count - 1 ≤ r.capacity
    omega
  · show (r.idx_oldest + 1) % r.capacity < r.capacity
    exact Nat.mod_lt _ h2
  · show (if r.idx_to_poll = r.idx_oldest then (r.idx_to_poll + 1) % r.capacity
        else r.idx_to_poll) < r.capacity
    split
    · exact Nat.mod_lt _ h2
    · exact h5
  · show (r.circle.set r.idx_oldest
        { r.circle.getD r.idx_oldest junk_connection
            with descriptor := bad_descriptor_k }).length = r.capacity
    rw [List.length_set]
    exact h6

theorem round_robin_t.bounds_poll (r : round_robin_t) (h : r.bounds_inv)
    (hpos : 0 < r.count) : ((r.poll).2).bounds_inv := by
  obtain ⟨h1, h2, h3, h4, h5, h6⟩ := h
  refine ⟨h1, h2, h3, h4, ?_, h6⟩
  show (if (r.idx_to_poll + 1) % r.count = r.idx_newest then r.idx_oldest
      else (r.idx_to_poll + 1) % r.count) < r.capacity
  split
  · exact h3
  · exact Nat.lt_of_lt_of_le (Nat.mod_lt _ hpos) h1

theorem reachable_bounds (r : round_robin_t) (h : round_robin_t.reachable r) :
    r.bounds_inv := by
  induction h with
  | alloc mem hpos => exact ⟨Nat.zero_le _, hpos, hpos, hpos, hpos, rfl⟩
  | push r d hr hcap ih => exact round_robin_t.bounds_push r d ih hcap
  | drop r hr hpos ih => exact round_robin_t.bounds_drop r ih
  | poll r hr hpos ih => exact round_robin_t.bounds_poll r ih hpos

theorem reachable_np_inv (r : round_robin_t) (h : round_robin_t.reachable_np r) :
    r.bounds_inv ∧ r.idx_to_poll = r.idx_oldest
      ∧ r.idx_newest = (r.idx_oldest + r.count) % r.capacity := by
  induction h with
  | alloc mem hpos =>
    refine ⟨⟨Nat.zero_le _, hpos, hpos, hpos, hpos, rfl⟩, rfl, ?_⟩
    show (0 : Nat) = (0 + 0) % mem.length
    simp
  | push r d hr hcap ih =>
    obtain ⟨hb, hp, hn⟩ := ih
    refine ⟨round_robin_t.bounds_push r d hb hcap, hp, ?_⟩
    show (r.idx_newest + 1) % r.capacity = (r.idx_oldest + (r.count + 1)) % r.capacity
    rw [hn, Nat.mod_add_mod, Nat.add_assoc]
  | drop r hr hpos ih =>
    obtain ⟨hb, hp, hn⟩ := ih
    refine ⟨round_robin_t.bounds_drop r hb, ?_, ?_⟩
    · show (if r.idx_to_poll = r.idx_oldest then (r.idx_to_poll + 1) % r.capacity
          else r.idx_to_poll) = (r.idx_oldest + 1) % r.capacity
      rw [hp]
      simp
    · show r.idx_newest = ((r.idx_oldest + 1) % r.capacity + (r.count - 1)) % r.capacity
      rw [hn, Nat.mod_add_mod]
      congr 1
      omega

theorem reachable_c2_state : round_robin_t.reachable c2_state :=
  round_robin_t.reachable.push _ 11
    (round_robin_t.reachable.push _ 10
      (round_robin_t.reachable.alloc (List.replicate 4 junk_connection) (by decide))
      (by decide))
    (by decide)

theorem reachable_np_c2_state : round_robin_t.reachable_np c2_state :=
  round_robin_t.reachable_np.push _ 11
    (round_robin_t.reachable_np.push _ 10
      (round_robin_t.reachable_np.alloc (List.replicate 4 junk_connection) (by decide))
      (by decide))
    (by decide)

theorem reachable_c1_state : round_robin_t.reachable c1_state :=
  round_robin_t.reachable.drop _
    (round_robin_t.reachable.drop _
      (round_robin_t.reachable.push _ 12 reachable_c2_state (by decide))
      (by decide))
    (by decide)

theorem reachable_c3_state : round_robin_t.reachable c3_state :=
  round_robin_t.reachable.poll c1_state reachable_c1_state (by decide)

/-! ### Claim theorems -/

/-- Claim C1, code evaluation at the failing input: `c1_state` is
reachable under the stated preconditions, holds exactly `k = 1` live
connection (descriptor 12, at the slot the poll cursor itself points
to), yet its single `poll()` returns the record of a DEAD slot — its
descriptor is the `bad_descriptor_k` sentinel and is not among the live
descriptors — so one cycle of `k` polls does not visit each live
connection exactly once in insertion order from the cursor. -/
theorem C1_bug_thm :
    round_robin_t.reachable c1_state
    ∧ c1_state.count = 1
    ∧ c1_state.live_descriptors = [12]
    ∧ c1_state.is_live_index c1_state.idx_to_poll
    ∧ (c1_state.poll).1.descriptor = bad_descriptor_k
    ∧ (c1_state.poll).1.descriptor ∉ c1_state.live_descriptors :=
  ⟨reachable_c1_state, by decide, by decide, by decide, by decide, by decide⟩

/-- Claim C2, code evaluation at the failing input: on the reachable
two-connection ring `c2_state` the record at the pre-call poll cursor
has descriptor 10, but `poll()` advances the cursor first and returns
the record at the ADVANCED cursor (descriptor 11, slot 1) — the local
holding the pre-advance record is computed and discarded in the source —
so `poll()` does not return the record at the cursor as it was before
the call. -/
theorem C2_bug_thm :
    round_robin_t.reachable c2_state
    ∧ (c2_state.circle.getD c2_state.idx_to_poll junk_connection).descriptor = 10
    ∧ (c2_state.poll).1.descriptor = 11
    ∧ (c2_state.poll).1 ≠ c2_state.circle.getD c2_state.idx_to_poll junk_connection
    ∧ (c2_state.poll).2.idx_to_poll = 1 :=
  ⟨reachable_c2_state, by decide, by decide, by decide, by decide⟩

/-- Claim C3, counterexample: the state `c3_state` is reachable from an
allocated empty ring by `push_ahead`, `drop_tail` and `poll` under their
stated preconditions, is non-empty, and yet violates the claimed
invariant: its poll cursor rests on a slot that is neither live nor the
empty-transition oldest slot. -/
theorem C3_counterexample :
    round_robin_t.reachable c3_state
    ∧ 0 < c3_state.count
    ∧ ¬ round_robin_t.claim_inv c3_state :=
  ⟨reachable_c3_state, by decide, fun h => absurd h.2.2.2 (by decide)⟩

/-- Claim C3 as amended: over all reachable states the count stays within
capacity and `idx_oldest`/`idx_newest` stay valid; the poll-cursor clause
of the invariant holds in every state reachable WITHOUT `poll` (a `poll`
can park the cursor on a dead slot, as the counterexample shows); and
eviction safety holds whenever at least two connections are live:
`drop_tail` with the cursor on the oldest slot leaves the cursor on a
live slot distinct from the just-evicted one. -/
theorem C3_amended_thm :
    (∀ r : round_robin_t, r.reachable →
        r.count ≤ r.capacity ∧ r.idx_oldest < r.capacity ∧ r.idx_newest < r.capacity)
    ∧ (∀ r : round_robin_t, r.reachable_np → r.claim_inv)
    ∧ (∀ r : round_robin_t, r.reachable → 2 ≤ r.count → r.idx_to_poll = r.idx_oldest →
        ((r.drop_tail).2).is_live_index ((r.drop_tail).2.idx_to_poll)
        ∧ (r.drop_tail).2.idx_to_poll ≠ r.idx_oldest) := by
  refine ⟨?_, ?_, ?_⟩
  · intro r hr
    obtain ⟨h1, _, h3, h4, _, _⟩ := reachable_bounds r hr
    exact ⟨h1, h3, h4⟩
  · intro r hr
    obtain ⟨⟨h1, h2, h3, h4, h5, h6⟩, hp, hn⟩ := reachable_np_inv r hr
    refine ⟨h1, h3, h4, ?_⟩
    by_cases hc : r.count = 0
    · exact Or.inr ⟨hc, hp⟩
    · refine Or.inl ?_
      unfold round_robin_t.is_live_index round_robin_t.live_indices
      refine List.mem_map.mpr ⟨0, List.mem_range.mpr (by omega), ?_⟩
      rw [Nat.add_zero, Nat.mod_eq_of_lt h3, hp]
  · intro r hr hcnt hp
    obtain ⟨h1, h2, h3, h4, h5, h6⟩ := reachable_bounds r hr
    have hcursor : (r.drop_tail).2.idx_to_poll = (r.idx_oldest + 1) % r.capacity := by
      show (if r.idx_to_poll = r.idx_oldest then (r.idx_to_poll + 1) % r.capacity
          else r.idx_to_poll) = (r.idx_oldest + 1) % r.capacity
      rw [hp]
      simp
    constructor
    · unfold round_robin_t.is_live_index round_robin_t.live_indices
      rw [hcursor]
      refine List.mem_map.mpr ⟨0, List.mem_range.mpr ?_, ?_⟩
      · show 0 < r.count - 1
        omega
      · show ((r.idx_oldest + 1) % r.capacity + 0) % r.capacity = (r.idx_oldest + 1) % r.capacity
        rw [Nat.add_zero, Nat.mod_mod]
    · rw [hcursor]
      rcases Nat.lt_or_ge (r.idx_oldest + 1) r.capacity with hlt | hge
      · rw [Nat.mod_eq_of_lt hlt]
        omega
      · have heq : r.idx_oldest + 1 = r.capacity := by omega
        rw [heq, Nat.mod_self]
        omega

/-- Claim C3 (amended), witness: on the reachable two-connection ring
`c2_state` the bounds hold, the full claimed invariant holds (it is
reachable without `poll`), and a `drop_tail` with the cursor at the
oldest slot leaves the cursor live and off the evicted slot. -/
theorem C3_witness :
    (c2_state.count ≤ c2_state.capacity ∧ c2_state.idx_oldest < c2_state.capacity
      ∧ c2_state.idx_newest < c2_state.capacity)
    ∧ round_robin_t.claim_inv c2_state
    ∧ ((c2_state.drop_tail).2).is_live_index ((c2_state.drop_tail).2.idx_to_poll)
    ∧ (c2_state.drop_tail).2.idx_to_poll ≠ c2_state.idx_oldest := by
  have h := C3_amended_thm.2.2 c2_state reachable_c2_state (by decide) (by decide)
  exact ⟨C3_amended_thm.1 c2_state reachable_c2_state,
         C3_amended_thm.2.1 c2_state reachable_np_c2_state, h.1, h.2⟩

/-- Claim C4, counterexample: encoding request id `"7"` and result body
`19` (no trailing comma) reports total length 36, not the claimed 38. -/
theorem C4_counterexample :
    (fill_with_content (("7").toList) (("19").toList) false).2 = 36 ∧
    (fill_with_content (("7").toList) (("19").toList) false).2 ≠ 38 := by
  decide

/-- Claim C4 as amended: `fill_with_content` with request id `"7"`,
result body `19` and no trailing comma fills five byte ranges whose
concatenation is exactly the success envelope for id 7 / result 19, and
returns a total length of 36 (the concatenation's byte count), not 38. -/
theorem C4_amended_thm :
    iovecs_join (fill_with_content (("7").toList) (("19").toList) false).1
      = ("\x7b\"jsonrpc\":\"2.0\",\"id\":7,\"result\":19\x7d").toList
    ∧ (fill_with_content (("7").toList) (("19").toList) false).2 = 36
    ∧ (fill_with_content (("7").toList) (("19").toList) false).1.length = 5 := by
  decide

/-- Claim C6: `fill_with_error` with id `"1"`, code `"-32601"`, message
`"Method not found"` and no trailing comma fills seven byte ranges whose
concatenation is exactly the JSON-RPC error envelope, and its returned
total equals that concatenation's byte length. -/
theorem C6_thm :
    iovecs_join (fill_with_error (("1").toList) (("-32601").toList)
        (("Method not found").toList) false).1
      = ("\x7b\"jsonrpc\":\"2.0\",\"id\":1,\"error\":\x7b\"code\":-32601,\"message\":\"Method not found\"\x7d\x7d").toList
    ∧ (fill_with_error (("1").toList) (("-32601").toList)
        (("Method not found").toList) false).2
      = (iovecs_join (fill_with_error (("1").toList) (("-32601").toList)
          (("Method not found").toList) false).1).length
    ∧ (fill_with_error (("1").toList) (("-32601").toList)
        (("Method not found").toList) false).1.length = 7 := by
  refine ⟨by decide, by decide, by decide⟩

/-- Claim C5: for every content length `n`, `set_http_content_length`
succeeds exactly when the decimal digits of `n` fit the 9-byte reserved
field (equivalently `n < 10^9`); it fails for every 10-or-more-digit
value; and on success it writes exactly the plain decimal digits
left-aligned at byte offset 33 of the 78-byte template, leaves the rest
of the reserved width as the template's space padding, and leaves every
byte outside the digit field unchanged. -/
theorem C5_thm (n : Nat) :
    ((set_http_content_length http_header_k n).1 = true ↔ n < 10 ^ 9)
    ∧ (10 ≤ (decimal_ascii n).length → (set_http_content_length http_header_k n).1 = false)
    ∧ ((decimal_ascii n).length ≤ 9 →
        (set_http_content_length http_header_k n).2.length = 78
        ∧ (set_http_content_length http_header_k n).2.take 33 = http_header_k.take 33
        ∧ ((set_http_content_length http_header_k n).2.drop 33).take (decimal_ascii n).length
            = decimal_ascii n
        ∧ (set_http_content_length http_header_k n).2.drop (33 + (decimal_ascii n).length)
            = http_header_k.drop (33 + (decimal_ascii n).length)
        ∧ ((set_http_content_length http_header_k n).2.drop
              (33 + (decimal_ascii n).length)).take (9 - (decimal_ascii n).length)
            = List.replicate (9 - (decimal_ascii n).length) (' ')) := by
  have hA : (http_header_k.take 33).length = 33 := by decide
  refine ⟨?_, ?_, ?_⟩
  · by_cases h : (decimal_ascii n).length ≤ 9
    · have hlt := (decimal_ascii_fits_iff n).mp h
      simp only [set_http_content_length, http_header_length_capacity_k, if_pos h]
      exact ⟨fun _ => hlt, fun _ => by simp⟩
    · have hge : ¬ n < 10 ^ 9 := fun hlt => h ((decimal_ascii_fits_iff n).mpr hlt)
      simp only [set_http_content_length, http_header_length_capacity_k, if_neg h]
      exact ⟨fun hfalse => absurd hfalse (by simp), fun hlt => absurd hlt hge⟩
  · intro h10
    have h : ¬ (decimal_ascii n).length ≤ 9 := by omega
    simp [set_http_content_length, http_header_length_capacity_k, h]
  · intro h
    have hout : (set_http_content_length http_header_k n).2
        = write_bytes http_header_k http_header_length_offset_k (decimal_ascii n) := by
      simp [set_http_content_length, http_header_length_capacity_k, h]
    rw [hout]
    have hoffset : http_header_length_offset_k = 33 := rfl
    rw [hoffset]
    refine ⟨?_, ?_, ?_, ?_, ?_⟩
    · rw [write_bytes]
      simp only [List.length_append, List.length_take, List.length_drop, http_header_k_length]
      omega
    · rw [write_bytes, List.append_assoc, List.take_left' hA]
    · rw [write_bytes, List.append_assoc, List.drop_left' hA, List.take_left' rfl]
    · have hAd : (http_header_k.take 33 ++ decimal_ascii n).length
          = 33 + (decimal_ascii n).length := by rw [List.length_append, hA]
      rw [write_bytes, List.drop_left' hAd]
    · have hAd : (http_header_k.take 33 ++ decimal_ascii n).length
          = 33 + (decimal_ascii n).length := by rw [List.length_append, hA]
      rw [write_bytes, List.drop_left' hAd]
      exact http_header_padding (decimal_ascii n).length (decimal_ascii_len_pos n) h

/-- Claim C5, witness at `n = 123`: the digits fit, the call succeeds,
and the patched header keeps length 78, its first 33 bytes, the digit
field `123`, and the trailing padding and remaining bytes. -/
theorem C5_witness :
    (decimal_ascii 123).length ≤ 9
    ∧ ((set_http_content_length http_header_k 123).1 = true ↔ 123 < 10 ^ 9)
    ∧ (set_http_content_length http_header_k 123).2.length = 78
    ∧ (set_http_content_length http_header_k 123).2.take 33 = http_header_k.take 33
    ∧ ((set_http_content_length http_header_k 123).2.drop 33).take (decimal_ascii 123).length
        = decimal_ascii 123
    ∧ (set_http_content_length http_header_k 123).2.drop (33 + (decimal_ascii 123).length)
        = http_header_k.drop (33 + (decimal_ascii 123).length)
    ∧ ((set_http_content_length http_header_k 123).2.drop
          (33 + (decimal_ascii 123).length)).take (9 - (decimal_ascii 123).length)
        = List.replicate (9 - (decimal_ascii 123).length) (' ') := by
  have h := (C5_thm 123).2.2 (by decide)
  exact ⟨by decide, (C5_thm 123).1, h.1, h.2.1, h.2.2.1, h.2.2.2.1, h.2.2.2.2⟩

/-- Claim C10: for every request id, body, error code, error message and
comma flag, the total returned by `fill_with_content` equals
`iovecs_length` of its five filled ranges, and the hardcoded sum returned
by `fill_with_error` equals `iovecs_length` of its seven filled ranges. -/
theorem C10_thm :
    (∀ (request_id body : List Char) (append_comma : Bool),
      (fill_with_content request_id body append_comma).2
        = iovecs_length (fill_with_content request_id body append_comma).1)
    ∧ (∀ (request_id error_code error_message : List Char) (append_comma : Bool),
      (fill_with_error request_id error_code error_message append_comma).2
        = iovecs_length (fill_with_error request_id error_code error_message append_comma).1) := by
  constructor
  · intro request_id body append_comma
    cases append_comma <;> simp [fill_with_content, iovecs_length] <;> omega
  · intro request_id error_code error_message append_comma
    cases append_comma <;>
      simp [fill_with_error, iovecs_length, response_protocol_start_k_length,
            error_code_separator_k_length, error_message_separator_k_length,
            error_suffix_k_length] <;>
      omega

/-- Claim C7: on a well-formed Array, `reserve n` with `n ≤ capacity` is
a no-op success; with `n > capacity` (and a successful allocation) it
returns `true`, keeps the bit patterns of all `capacity` existing slots
(hence of every previously appended element), default-constructs the
newly exposed region, keeps `count`, and sets `capacity` to `n`; and
under any non-decreasing sequence of successful `reserve` calls the first
`count` (appended) elements stay bit-identical. -/
theorem C7_thm {α : Type} [Inhabited α] (a : array_gt α) (n : Nat) (ok : Bool) (hwf : a.wf) :
    (n ≤ a.capacity → a.reserve n ok = (true, a))
    ∧ (a.capacity < n →
        (a.reserve n true).1 = true
        ∧ (a.reserve n true).2.elements.take a.capacity = a.elements
        ∧ (a.reserve n true).2.elements.drop a.capacity
            = List.replicate (n - a.capacity) default
        ∧ (a.reserve n true).2.count = a.count
        ∧ (a.reserve n true).2.capacity = n)
    ∧ (∀ ns : List Nat, List.Chain' (fun x y => x ≤ y) ns →
        (a.reserve_seq ns).elements.take a.count = a.elements.take a.count) := by
  obtain ⟨hcnt, hlen⟩ := hwf
  refine ⟨?_, ?_, ?_⟩
  · intro h
    unfold array_gt.reserve
    rw [if_pos h]
  · intro h
    have hnle : ¬ n ≤ a.capacity := by omega
    unfold array_gt.reserve
    rw [if_neg hnle]
    exact ⟨rfl, List.take_left' hlen, List.drop_left' hlen, rfl, rfl⟩
  · intro ns _
    exact array_gt.reserve_seq_take ns a ⟨hcnt, hlen⟩

/-- Claim C7, witness: on the array holding `[5, 6]` at capacity 2, a
no-growth reserve is an identity success, a growing reserve to 4 keeps
the two appended elements and default-fills the tail, and the
non-decreasing sequence `reserve 3; reserve 4` keeps them bit-identical. -/
theorem C7_witness :
    ((⟨[5, 6], 2, 2⟩ : array_gt Nat).reserve 2 true = (true, ⟨[5, 6], 2, 2⟩))
    ∧ (((⟨[5, 6], 2, 2⟩ : array_gt Nat).reserve 4 true).2.elements.take 2 = [5, 6])
    ∧ (((⟨[5, 6], 2, 2⟩ : array_gt Nat).reserve 4 true).2.elements.drop 2
        = List.replicate 2 0)
    ∧ (((⟨[5, 6], 2, 2⟩ : array_gt Nat).reserve_seq [3, 4]).elements.take 2 = [5, 6]) := by
  have hwf : (⟨[5, 6], 2, 2⟩ : array_gt Nat).wf := ⟨by decide, by decide⟩
  have h2 := (C7_thm (⟨[5, 6], 2, 2⟩ : array_gt Nat) 4 true hwf).2.1 (by decide)
  exact ⟨(C7_thm (⟨[5, 6], 2, 2⟩ : array_gt Nat) 2 true hwf).1 (by decide),
         h2.2.1, h2.2.2.1,
         (C7_thm (⟨[5, 6], 2, 2⟩ : array_gt Nat) 2 true hwf).2.2 [3, 4]
           (by simp [List.chain'_cons])⟩

/-- Claim C8: on a freshly reserved Pool of capacity `n`, the first `n`
`alloc()` calls all return non-null offsets, the `(n+1)`-th returns null
(the pool never grows), and on any pool state with a free slot on the
stack — in particular right after `release(p)` of a previously allocated
element — the next `alloc()` returns exactly the just-released offset
(last released, first reused). -/
theorem C8_thm (n : Nat) :
    (((pool_gt.reserve ⟨0, 0, []⟩ n true).2.alloc_n n).1.all Option.isSome)
    ∧ ((((pool_gt.reserve ⟨0, 0, []⟩ n true).2.alloc_n n).2.alloc).1 = none)
    ∧ (∀ (p : pool_gt) (off : Nat), p.free_count < p.free_offsets.length →
        (((p.release off).alloc).1 = some off)) := by
  rw [show (pool_gt.reserve (⟨0, 0, []⟩ : pool_gt) n true).2
        = (⟨n, n, List.range n⟩ : pool_gt) from rfl]
  have hspec := pool_gt.alloc_n_spec n (⟨n, n, List.range n⟩ : pool_gt) (le_refl n)
  refine ⟨hspec.1, ?_, ?_⟩
  · have h0 : (((⟨n, n, List.range n⟩ : pool_gt).alloc_n n).2).free_count = 0 := by
      rw [hspec.2.1]; simp
    unfold pool_gt.alloc
    rw [if_neg (by rw [h0]; exact fun hne => hne rfl)]
  · intro p off hlt
    have hne : (p.release off).free_count ≠ 0 := by
      unfold pool_gt.release
      simp
    unfold pool_gt.alloc
    rw [if_pos hne]
    unfold pool_gt.release
    simp only [Nat.add_sub_cancel]
    rw [List.getD_eq_getElem?_getD, List.getElem?_set_eq_of_lt off hlt]
    rfl

/-- Claim C8, witness at capacity 2: both fresh `alloc()`s succeed, the
third returns null, and on the pool whose offset 1 is allocated
(`free_count = 1`), releasing offset 1 makes the next `alloc()` return
offset 1 again. -/
theorem C8_witness :
    (((pool_gt.reserve ⟨0, 0, []⟩ 2 true).2.alloc_n 2).1.all Option.isSome)
    ∧ ((((pool_gt.reserve ⟨0, 0, []⟩ 2 true).2.alloc_n 2).2.alloc).1 = none)
    ∧ ((((⟨2, 1, [0, 1]⟩ : pool_gt).release 1).alloc).1 = some 1) :=
  ⟨(C8_thm 2).1, (C8_thm 2).2.1, (C8_thm 2).2.2 ⟨2, 1, [0, 1]⟩ 1 (by decide)⟩

/-- Claim C9, counterexample: `buffer_gt::resize` does NOT leave the
state unchanged on allocation failure.  The buffer `⟨some [0], 1⟩` is
reachable by a successful `resize 1`; a failing `resize 2` then returns
`false` but nulls the data pointer (the source assigns the `malloc`
result to `elements_` before the null check), so the post-failure state
differs from the pre-call state. -/
theorem C9_counterexample :
    (((⟨none, 0⟩ : buffer_gt Nat).resize 1 true).2 = (⟨some [0], 1⟩ : buffer_gt Nat))
    ∧ ((⟨some [0], 1⟩ : buffer_gt Nat).resize 2 false
        = (false, (⟨none, 1⟩ : buffer_gt Nat)))
    ∧ ((⟨none, 1⟩ : buffer_gt Nat) ≠ (⟨some [0], 1⟩ : buffer_gt Nat)) := by
  decide

/-- Claim C9 as amended: allocation failure in `array_gt::reserve`,
`pool_gt::reserve` and `round_robin_gt::alloc` returns `false` and
leaves the container exactly as it was; `buffer_gt::resize`, however,
returns `false` but nulls its data pointer while keeping the stale
capacity, so only those three operations avoid partial state change. -/
theorem C9_amended_thm {α : Type} [Inhabited α] :
    (∀ (a : array_gt α) (n : Nat), a.capacity < n → a.reserve n false = (false, a))
    ∧ (∀ (p : pool_gt) (n : Nat), p.reserve n false = (false, p))
    ∧ (∀ (r : round_robin_t), r.alloc none = (false, r))
    ∧ (∀ (b : buffer_gt α) (n : Nat),
        (b.resize n false).1 = false
        ∧ (b.resize n false).2.capacity = b.capacity
        ∧ (b.resize n false).2.elements = none) := by
  refine ⟨?_, ?_, ?_, ?_⟩
  · intro a n h
    unfold array_gt.reserve
    rw [if_neg (by omega)]
    rfl
  · intro p n
    rfl
  · intro r
    rfl
  · intro b n
    exact ⟨rfl, rfl, rfl⟩

/-- Claim C9 (amended), witness: concrete failing allocations on each
container — the array, pool and ring are returned untouched, the buffer
comes back with a null data pointer. -/
theorem C9_witness :
    ((⟨[7], 1, 1⟩ : array_gt Nat).reserve 2 false = (false, ⟨[7], 1, 1⟩))
    ∧ (pool_gt.reserve (⟨2, 2, [0, 1]⟩ : pool_gt) 3 false = (false, ⟨2, 2, [0, 1]⟩))
    ∧ (round_robin_t.alloc round_robin_t.init none = (false, round_robin_t.init))
    ∧ (((⟨some [5], 1⟩ : buffer_gt Nat).resize 2 false).1 = false)
    ∧ (((⟨some [5], 1⟩ : buffer_gt Nat).resize 2 false).2.elements = none) :=
  ⟨(@C9_amended_thm Nat _).1 ⟨[7], 1, 1⟩ 2 (by decide),
   (@C9_amended_thm Nat _).2.1 ⟨2, 2, [0, 1]⟩ 3,
   (@C9_amended_thm Nat _).2.2.1 round_robin_t.init,
   ((@C9_amended_thm Nat _).2.2.2 (⟨some [5], 1⟩ : buffer_gt Nat) 2).1,
   ((@C9_amended_thm Nat _).2.2.2 (⟨some [5], 1⟩ : buffer_gt Nat) 2).2.2⟩
